import Mathlib

/-!
Verification of the layout-reconstruction pipeline (`config_manager.py`).

A shallow embedding of the core pipeline of the repository: line
reconstruction from positioned tokens, data-row classification, adaptive
column-boundary inference, grid mapping by geometric overlap, top-level info
extraction, and record extraction with sticky feature names.

Coordinates (`x0`, `x1`, `top`) are modelled as rationals (`ℚ`): the Python
code uses floats, but every computation the verified claims depend on is
exact decimal arithmetic on small values, where float and rational semantics
agree.  Strings are modelled as Lean `String`s; Python `str.strip` is
modelled by `String.trim` (both remove surrounding whitespace; the exact
whitespace set differs only on exotic unicode code points that do not occur
in the data handled here).
-/

/-- A positioned text token, as produced by the external token extractor
(`page.extract_words`): text, horizontal extent `[x0, x1]`, vertical
position `top`. -/
structure Token where
  text : String
  x0 : ℚ
  x1 : ℚ
  top : ℚ
deriving DecidableEq, Repr

/-- `LINE_TOLERANCE = 2` from `config_manager.py`. -/
def LINE_TOLERANCE : ℚ := 2

/-- `MIN_X_COORD = 5.0` from `config_manager.py`. -/
def MIN_X_COORD : ℚ := 5

/-- `MAX_X_COORD = 700.0` from `config_manager.py`. -/
def MAX_X_COORD : ℚ := 700

/-- `DATA_ROW_MIN_COLUMNS = 2` from `config_manager.py`. -/
def DATA_ROW_MIN_COLUMNS : ℕ := 2

/-! ## Line reconstruction (`extract_words_and_reconstruct_lines`) -/
/-- The sort key `(float(word['top']), float(word['x0']))` used on line 107 of
`config_manager.py`: lexicographic on `top` then `x0`. -/
def lexTopX0 (a b : Token) : Prop :=
  a.top < b.top ∨ (a.top = b.top ∧ a.x0 ≤ b.x0)

instance : DecidableRel lexTopX0 := fun a b => by
  unfold lexTopX0; infer_instance

instance : IsTotal Token lexTopX0 := by
  constructor
  intro a b
  unfold lexTopX0
  rcases lt_trichotomy a.top b.top with h | h | h
  · exact Or.inl (Or.inl h)
  · rcases le_total a.x0 b.x0 with h2 | h2
    · exact Or.inl (Or.inr ⟨h, h2⟩)
    · exact Or.inr (Or.inr ⟨h.symm, h2⟩)
  · exact Or.inr (Or.inl h)

instance : IsTrans Token lexTopX0 := by
  constructor
  intro a b c hab hbc
  unfold lexTopX0 at *
  rcases hab with h | ⟨he, hx⟩
  · rcases hbc with h2 | ⟨he2, _⟩
    · exact Or.inl (h.trans h2)
    · exact Or.inl (he2 ▸ h)
  · rcases hbc with h2 | ⟨he2, hx2⟩
    · exact Or.inl (he ▸ h2)
    · exact Or.inr ⟨he.trans he2, hx.trans hx2⟩

/-- The key `float(word['x0'])` used to re-sort a finished line (lines 117
and 121 of `config_manager.py`). -/
def leX0 (a b : Token) : Prop := a.x0 ≤ b.x0

instance : DecidableRel leX0 := fun a b => by
  unfold leX0; infer_instance

/-- `all_words_from_pdf.sort(key=lambda word: (word['top'], word['x0']))`. -/
def sortWordsByTopX0 (ws : List Token) : List Token :=
  List.insertionSort lexTopX0 ws

/-- `current_line.sort(key=lambda word: word['x0'])`. -/
def sortLineByX0 (l : List Token) : List Token :=
  List.insertionSort leX0 l

/-- The greedy clustering loop of `extract_words_and_reconstruct_lines`
(lines 108-122): `firstTok` is `current_line[0]`, `cur` holds the rest of the
current line in encounter order, and each remaining word joins the current
line iff `|word.top - current_line[0].top| <= line_tolerance`; otherwise the
current line is flushed (re-sorted by `x0`) and a new line starts. -/
def reconstructAux (tol : ℚ) (firstTok : Token) (cur : List Token) :
    List Token → List (List Token)
  | [] => [sortLineByX0 (firstTok :: cur)]
  | w :: ws =>
    if |w.top - firstTok.top| ≤ tol then
      reconstructAux tol firstTok (cur ++ [w]) ws
    else
      sortLineByX0 (firstTok :: cur) :: reconstructAux tol w [] ws

/-- The clustering step of `extract_words_and_reconstruct_lines`
(lines 107-123 of `config_manager.py`): sort all extracted words by
`(top, x0)`, then greedily group them into lines by vertical proximity to
the first word of the current line. -/
def extract_words_and_reconstruct_lines (tol : ℚ) (ws : List Token) :
    List (List Token) :=
  match sortWordsByTopX0 ws with
  | [] => []
  | w :: rest => reconstructAux tol w [] rest

/-- The `top` of the first token of a line (`0` for an empty line; the
reconstructor never emits an empty line). -/
def lineFirstTop (l : List Token) : ℚ :=
  match l with
  | [] => 0
  | t :: _ => t.top

/-! ## Python string primitives

The Lean core `String` functions (`trim`, `toUpper`, `replace`, ...) are
implemented by byte-position iteration and do not reduce in the kernel, so
the Python string operations used by the pipeline are modelled directly on
the character list. -/
/-- The whitespace test backing Python's `str.strip` and `\s`
(ASCII whitespace; exotic unicode whitespace is not modelled). -/
def pyIsSpace (c : Char) : Bool := c.isWhitespace

/-- Python `str.strip()`: remove leading and trailing whitespace. -/
def pyStrip (s : String) : String :=
  String.mk (((s.data.dropWhile pyIsSpace).reverse.dropWhile pyIsSpace).reverse)

/-- Python `str.upper()` (ASCII; the only letters the pipeline upper-cases
are ASCII axis codes). -/
def pyUpper (s : String) : String := String.mk (s.data.map Char.toUpper)

/-- Python `text.replace(',', '')`: delete every comma. -/
def pyRemoveCommas (s : String) : String :=
  String.mk (s.data.filter (fun c => c != ','))

/-- Python `"sep".join(parts)`. -/
def pyJoin (sep : String) (parts : List String) : String :=
  match parts with
  | [] => ""
  | p :: ps => ps.foldl (fun acc q => acc ++ sep ++ q) p

/-! ## Numeric parsing (`is_numeric`) and data-row classification
(`identify_data_rows_and_header_ref`, lines 128-145) -/
/-- ASCII digit test (`\d` in the patterns below; the documents carry only
ASCII digits). -/
def isAsciiDigit (c : Char) : Bool := '0' ≤ c && c ≤ '9'

/-- Helper: strips one optional leading `+`/`-` sign. -/
def dropSign (cs : List Char) : List Char :=
  match cs with
  | '+' :: rest => rest
  | '-' :: rest => rest
  | _ => cs

/-- Optional exponent suffix of a Python float literal: empty, or
`e`/`E`, an optional sign and at least one digit, ending the string. -/
def pyFloatExpPart (cs : List Char) : Bool :=
  match cs with
  | [] => true
  | e :: rest =>
    (e == 'e' || e == 'E') &&
      (let r := dropSign rest
       !(r.takeWhile isAsciiDigit).isEmpty && (r.dropWhile isAsciiDigit).isEmpty)

/-- Decimal part of a Python float literal (after the optional sign):
digits, an optional `.` with further digits (at least one digit in total),
then an optional exponent. -/
def pyFloatDecPart (cs : List Char) : Bool :=
  let intPart := cs.takeWhile isAsciiDigit
  let rest1 := cs.dropWhile isAsciiDigit
  match rest1 with
  | [] => !intPart.isEmpty
  | '.' :: rest2 =>
    let frac := rest2.takeWhile isAsciiDigit
    let rest3 := rest2.dropWhile isAsciiDigit
    (!intPart.isEmpty || !frac.isEmpty) && pyFloatExpPart rest3
  | _ => !intPart.isEmpty && pyFloatExpPart rest1

/-- Model of CPython `float(s)` literal acceptance on an already-stripped
string: an optional sign followed by `inf`/`infinity`/`nan`
(case-insensitive) or a decimal literal with optional fraction and exponent.
(Digit-separator underscores, which `float` also accepts, are not modelled;
they play no role in any verified claim.) -/
def pyFloatAccepts (s : String) : Bool :=
  let cs := dropSign s.data
  let low := cs.map Char.toLower
  if low = "inf".data || low = "infinity".data || low = "nan".data then true
  else pyFloatDecPart cs

/-- The fallback pattern `^-?(\d*\.\d+|\d+\.\d*)$` of `is_numeric`
(line 85 of `config_manager.py`): an optional minus sign, then either
`.` with at least one fractional digit, or at least one integer digit
followed by `.`. -/
def pyDecimalDotMatch (s : String) : Bool :=
  let cs := match s.data with
    | '-' :: rest => rest
    | rest => rest
  let intPart := cs.takeWhile isAsciiDigit
  let rest1 := cs.dropWhile isAsciiDigit
  match rest1 with
  | '.' :: rest2 =>
    let frac := rest2.takeWhile isAsciiDigit
    let rest3 := rest2.dropWhile isAsciiDigit
    rest3.isEmpty && (!frac.isEmpty || !intPart.isEmpty)
  | _ => false

/-- `is_numeric` (lines 77-86 of `config_manager.py`): strip the text,
reject empty text, accept if `float(text.replace(',', ''))` parses, else
accept if the stripped text (commas intact) matches
`^-?(\d*\.\d+|\d+\.\d*)$`. -/
def is_numeric (text : String) : Bool :=
  let t := pyStrip text
  if t = "" then false
  else if pyFloatAccepts (pyRemoveCommas t) then true
  else pyDecimalDotMatch t

/-- The fixed axis-label codes of line 138:
`['M', 'X', 'Y', 'Z', 'L', 'AX', 'PT']`. -/
def axisCodes : List String := ["M", "X", "Y", "Z", "L", "AX", "PT"]

/-- `re.match(r"^[A-Z]$", first_word_text)` on the stripped, upper-cased
first word: exactly one ASCII upper-case letter.  (Python's `$` would also
match before a trailing newline, but the text was stripped first.) -/
def isSingleUpperLetter (s : String) : Bool :=
  match s.data with
  | [c] => 'A' ≤ c && c ≤ 'Z'
  | _ => false

/-- The per-line data-row test of `identify_data_rows_and_header_ref`
(lines 135-145 of `config_manager.py`): lines with fewer than
`DATA_ROW_MIN_COLUMNS = 2` words are skipped; a line whose stripped,
upper-cased first word is an axis code (or any single upper-case letter) is
a data row; otherwise a line with more than 2 words, at least one numeric
word after the first, and a numeric ratio of at least 1/2 among the words
after the first, is a data row. -/
def lineIsDataRow (lw : List Token) : Bool :=
  if lw.length < DATA_ROW_MIN_COLUMNS then false
  else
    let firstWordText := pyUpper (pyStrip (lw.headD ⟨"", 0, 0, 0⟩).text)
    if axisCodes.contains firstWordText || isSingleUpperLetter firstWordText then
      true
    else if 1 < lw.length then
      let numericWordCount := ((lw.drop 1).filter (fun w => is_numeric w.text)).length
      decide (2 < lw.length) &&
        decide (DATA_ROW_MIN_COLUMNS - 1 ≤ numericWordCount) &&
        decide ((1 : ℚ) / 2 ≤ (numericWordCount : ℚ) / ((lw.length : ℚ) - 1))
    else false

/-- The enumeration of `reconstructed_lines` with running index `i`,
collecting the indices of lines that pass the data-row test (the
`data_row_indices` list of lines 131-145). -/
def dataRowsFrom : ℕ → List (List Token) → List ℕ
  | _, [] => []
  | i, lw :: rest =>
    if lineIsDataRow lw then i :: dataRowsFrom (i + 1) rest
    else dataRowsFrom (i + 1) rest

/-- The `data_row_indices` result of `identify_data_rows_and_header_ref`
(lines 128-145 of `config_manager.py`; the header-selection part of that
function is not needed by any claim). -/
def identify_data_rows (lines : List (List Token)) : List ℕ :=
  dataRowsFrom 0 lines

/-- The data-row test exactly as claim C6 words it: (a) the first token's
stripped, upper-cased text matches the fixed axis-label codes (single
letters or the short codes), regardless of remaining content, OR (b) the
line has at least 3 tokens, at least one remaining token is numeric, and
the numeric ratio among the remaining tokens is at least 1/2.  (This is the
spec-side predicate, to be compared with `lineIsDataRow` from the source.) -/
def claimDataRowTest (lw : List Token) : Bool :=
  match lw with
  | [] => false
  | w :: rest =>
    let firstWordText := pyUpper (pyStrip w.text)
    (axisCodes.contains firstWordText || isSingleUpperLetter firstWordText) ||
    (decide (3 ≤ (w :: rest).length) &&
      decide (1 ≤ ((w :: rest).drop 1 |>.filter (fun t => is_numeric t.text)).length) &&
      decide ((1 : ℚ) / 2 ≤
        ((((w :: rest).drop 1 |>.filter (fun t => is_numeric t.text)).length : ℚ) /
          (((w :: rest).length : ℚ) - 1))))

/-- Claim C6 amended: identical to `claimDataRowTest` except that
alternative (a) additionally requires the line to have at least
`DATA_ROW_MIN_COLUMNS = 2` tokens (the code skips shorter lines before the
axis-code check). -/
def amendedDataRowTest (lw : List Token) : Bool :=
  let firstWordText := pyUpper (pyStrip (lw.headD ⟨"", 0, 0, 0⟩).text)
  (decide (DATA_ROW_MIN_COLUMNS ≤ lw.length) &&
    (axisCodes.contains firstWordText || isSingleUpperLetter firstWordText)) ||
  (decide (3 ≤ lw.length) &&
    decide (1 ≤ ((lw.drop 1).filter (fun t => is_numeric t.text)).length) &&
    decide ((1 : ℚ) / 2 ≤
      ((((lw.drop 1).filter (fun t => is_numeric t.text)).length : ℚ) /
        ((lw.length : ℚ) - 1))))

/-- A single-token line whose only token is the axis code `X`. -/
def xTok : Token := ⟨"X", 0, 1, 0⟩

/-! ## Adaptive column boundaries (`define_adaptive_column_boundaries`,
lines 189-235) -/
/-- `statistics.mean` on a list of rationals. -/
def meanQ (l : List ℚ) : ℚ := l.sum / l.length

/-- `column_x0_candidates[i]` (lines 197-206): the `x0` of the token at
position `i` of each source row (rows past the end of
`reconstructed_lines` are skipped; tokens at positions `>= num_expected_columns`
are ignored). -/
def columnX0Candidates (lines : List (List Token)) (source : List ℕ)
    (numExpected i : ℕ) : List ℚ :=
  (source.map (fun r =>
    match lines[r]? with
    | none => []
    | some lw => if i < numExpected then ((lw[i]?).map Token.x0).toList
                 else [])).flatten

/-- One step of the `avg_x0_starts` loop (lines 209-214): mean of the
candidates if any, else the header token's `x0` at the same position, else
the previous inferred start plus 50, else an evenly spaced position.
`acc` holds the starts inferred so far (all previous entries are always
assigned, so Python's `avg_x0_starts[i-1] is not None` test is equivalent
to `0 < i`). -/
def avgX0Value (lines : List (List Token)) (source : List ℕ)
    (headerWords : List Token) (numExpected : ℕ) (minX maxX : ℚ)
    (i : ℕ) (acc : List ℚ) : ℚ :=
  if columnX0Candidates lines source numExpected i ≠ [] then
    meanQ (columnX0Candidates lines source numExpected i)
  else if i < headerWords.length then ((headerWords[i]?).map Token.x0).getD 0
  else if 0 < i then acc.getLastD 0 + 50
  else minX + (i : ℚ) * ((maxX - minX) / (numExpected : ℚ))

/-- The `for i in range(num_expected_columns)` loop building
`avg_x0_starts`: `k` counts the remaining iterations, `i` is the current
index, `acc` the list built so far. -/
def avgX0Aux (lines : List (List Token)) (source : List ℕ)
    (headerWords : List Token) (numExpected : ℕ) (minX maxX : ℚ) :
    ℕ → ℕ → List ℚ → List ℚ
  | 0, _, acc => acc
  | k + 1, i, acc =>
    avgX0Aux lines source headerWords numExpected minX maxX k (i + 1)
      (acc ++ [avgX0Value lines source headerWords numExpected minX maxX i acc])

/-- `avg_x0_starts` (lines 207-214). -/
def avgX0Starts (lines : List (List Token)) (source : List ℕ)
    (headerWords : List Token) (numExpected : ℕ) (minX maxX : ℚ) : List ℚ :=
  avgX0Aux lines source headerWords numExpected minX maxX numExpected 0 []

/-- `effective_col_starts = sorted([x for x in avg_x0_starts if x is not
None and x <= max_x])` (line 215; no entry is ever `None`). -/
def effectiveColStarts (lines : List (List Token)) (source : List ℕ)
    (headerWords : List Token) (numExpected : ℕ) (minX maxX : ℚ) : List ℚ :=
  List.insertionSort (· ≤ ·)
    ((avgX0Starts lines source headerWords numExpected minX maxX).filter
      (fun x => decide (x ≤ maxX)))

/-- The column end of one iteration of the boundary-building loop
(lines 220-225): the midpoint to the next start (widened to
`current + 10` when it would not clear `current + 1`), or `max_x` for the
last column. -/
def boundaryColEnd (maxX cur s : ℚ) (rest : List ℚ) : ℚ :=
  match rest with
  | s' :: _ => if (s + s') / 2 ≤ cur + 1 then cur + 10 else (s + s') / 2
  | [] => maxX

/-- One emitted boundary of the loop (lines 226-228): the start is the
current cursor (the Python expression
`min(current, col_text_start if col_text_start > current else current)`
always equals `current`), pushed back to `col_end - 10` (or `0`) when it
would not precede `col_end`. -/
def boundaryStep (maxX cur s : ℚ) (rest : List ℚ) : ℚ × ℚ :=
  let colEnd := boundaryColEnd maxX cur s rest
  let actualStart0 := min cur (if s > cur then s else cur)
  let actualStart :=
    if actualStart0 ≥ colEnd then (if colEnd > 10 then colEnd - 10 else 0)
    else actualStart0
  (actualStart, colEnd)

/-- The cursor update of line 229: `col_end` if it advanced past the
emitted start, else the emitted start plus 10. -/
def boundaryNewCur (maxX cur s : ℚ) (rest : List ℚ) : ℚ :=
  if (boundaryStep maxX cur s rest).2 > (boundaryStep maxX cur s rest).1 then
    (boundaryStep maxX cur s rest).2
  else (boundaryStep maxX cur s rest).1 + 10

/-- The boundary-building loop (lines 217-229): `cur` is
`current_col_start`, the list argument is the remaining
`effective_col_starts`. -/
def boundaryLoop (maxX : ℚ) : ℚ → List ℚ → List (ℚ × ℚ)
  | _, [] => []
  | cur, s :: rest =>
    boundaryStep maxX cur s rest ::
      boundaryLoop maxX (boundaryNewCur maxX cur s rest) rest

/-- The final fix-up (lines 230-234): extend the last boundary to `max_x`
if it falls short (or clamp it to `(max_x - 10, max_x)` when its start is
already at or past `max_x`); append a single full-range boundary if the
loop produced nothing for a positive expected column count. -/
def fixLastBoundary (bs : List (ℚ × ℚ)) (minX maxX : ℚ) (numExpected : ℕ) :
    List (ℚ × ℚ) :=
  match bs.getLast? with
  | some (ls, le) =>
    if le < maxX then
      bs.dropLast ++ [if ls < maxX then (ls, maxX) else (maxX - 10, maxX)]
    else bs
  | none => if 0 < numExpected then [(minX, maxX)] else bs

/-- `define_adaptive_column_boundaries` (lines 189-235 of
`config_manager.py`), with the module constants `MIN_X_COORD = 5` and
`MAX_X_COORD = 700` as the horizontal range. -/
def define_adaptive_column_boundaries (lines : List (List Token))
    (dataRowIndices : List ℕ) (headerRowIdx numExpected : ℕ) :
    List (ℚ × ℚ) :=
  let minX := MIN_X_COORD
  let maxX := MAX_X_COORD
  if numExpected = 0 then [(minX, maxX)]
  else if dataRowIndices = [] ∧ ¬ headerRowIdx < lines.length then
    [(minX, maxX)]
  else
    let source := if dataRowIndices = [] then [headerRowIdx] else dataRowIndices
    let headerWords := (lines[headerRowIdx]?).getD []
    let eff := effectiveColStarts lines source headerWords numExpected minX maxX
    if eff = [] then [(minX, maxX)]
    else fixLastBoundary (boundaryLoop maxX minX eff) minX maxX numExpected

/-- A token with text `"t"`, left edge `x`, width `1`, top `0`; used to
build concrete counterexample documents. -/
def cTok (x : ℚ) : Token := ⟨"t", x, x + 1, 0⟩

/-! ## Grid mapping (`map_lines_to_grid`, lines 237-268) -/
/-- `" ".join(w.get('text','') for w in line).strip()` (line 241), used when
there are no column boundaries. -/
def joinLineAllText (l : List Token) : String :=
  pyStrip (pyJoin " " (l.map Token.text))

/-- `max(0, min(w_x1, cex) - max(w_x0, csx))` (line 254): the raw horizontal
overlap between token extent `[x0, x1]` and boundary `[s, e]`. -/
def rawOverlap (x0 x1 s e : ℚ) : ℚ := max 0 (min x1 e - max x0 s)

/-- `word_width = w_x1 - w_x0 if w_x1 > w_x0 else 1.0` (line 250). -/
def wordWidth (x0 x1 : ℚ) : ℚ := if x1 > x0 then x1 - x0 else 1

/-- The inner loop over column boundaries (lines 252-262): `i` enumerates
the boundaries, the accumulator is `(best_col_idx, max_overlap_ratio)`
(with `none` for `-1`); degenerate boundaries (`csx >= cex`) are skipped,
a strictly larger ratio takes the column, and the `overlap > 0 and best ==
-1` fallback of line 261 is retained verbatim (it is in fact unreachable:
positive overlap forces a positive ratio). -/
def bestColAux (x0 x1 width : ℚ) :
    List (ℚ × ℚ) → ℕ → Option ℕ × ℚ → Option ℕ × ℚ
  | [], _, acc => acc
  | (s, e) :: rest, i, (best, maxR) =>
    if s ≥ e then bestColAux x0 x1 width rest (i + 1) (best, maxR)
    else if rawOverlap x0 x1 s e / width > maxR then
      bestColAux x0 x1 width rest (i + 1) (some i, rawOverlap x0 x1 s e / width)
    else if rawOverlap x0 x1 s e > 0 ∧ best = none then
      bestColAux x0 x1 width rest (i + 1) (some i, maxR)
    else bestColAux x0 x1 width rest (i + 1) (best, maxR)

/-- The column chosen for a token with extent `[x0, x1]` (lines 249-262). -/
def findBestCol (bs : List (ℚ × ℚ)) (x0 x1 : ℚ) : Option ℕ :=
  (bestColAux x0 x1 (wordWidth x0 x1) bs 0 (none, 0)).1

/-- Appending a token's text to a cell (lines 264-266): a separating space
is inserted only when the cell is non-empty. -/
def appendCell (cell t : String) : String :=
  if cell ≠ "" then cell ++ " " ++ t else t

/-- Processing one token of a line (lines 246-266): blank tokens are
skipped, otherwise the token's stripped text is appended to the cell of its
best column (tokens with no positive overlap anywhere are dropped). -/
def assignWordStep (bs : List (ℚ × ℚ)) (cells : List String) (w : Token) :
    List String :=
  if pyStrip w.text = "" then cells
  else
    match findBestCol bs w.x0 w.x1 with
    | none => cells
    | some j => cells.set j (appendCell (cells.getD j "") (pyStrip w.text))

/-- One grid row (lines 245-267): start from `num_columns` empty cells,
fold the line's tokens through `assignWordStep`, then strip every cell. -/
def assignLine (bs : List (ℚ × ℚ)) (l : List Token) : List String :=
  (l.foldl (assignWordStep bs) (List.replicate bs.length "")).map pyStrip

/-- `map_lines_to_grid` (lines 237-268 of `config_manager.py`). -/
def map_lines_to_grid (lines : List (List Token)) (bs : List (ℚ × ℚ)) :
    List (List String) :=
  if bs = [] then lines.map (fun l => [joinLineAllText l])
  else lines.map (fun l => assignLine bs l)

/-- The overlap ratio exactly as claim C8 words it: the raw overlap divided
by the token width floored at 1 unit. -/
def ratioSpec (x0 x1 s e : ℚ) : ℚ := rawOverlap x0 x1 s e / max 1 (x1 - x0)

/-! ## Record extraction (`structure_data_for_excel`, lines 306-348) -/
/-- `KAN_HEADERS_TEMPLATE` (line 23 of `config_manager.py`). -/
def KAN_HEADERS_TEMPLATE : List String :=
  ["轴", "标称值", "正公差", "负公差", "测定", "最大值", "最小值", "偏差", "超差"]

/-- `kan_header_to_idx.get(name)` (lines 315-319): the dictionary maps each
header of the truncated template to its position; the template has no
duplicates, so the comprehension index is the first occurrence index. -/
def kanIdx (numCols : ℕ) (name : String) : Option ℕ :=
  let eff := KAN_HEADERS_TEMPLATE.take numCols
  if eff.contains name then some (eff.indexOf name) else none

/-- A guarded cell lookup: `row_cells[idx]` when the semantic column exists
and the row is long enough, else the empty string the Excel row was
initialised with (lines 328-335). -/
def cellAt (row : List String) (oi : Option ℕ) : String :=
  match oi with
  | some k => if k < row.length then row.getD k "" else ""
  | none => ""

/-- `re.match(r"^\s*DIM", first_cell_text, re.IGNORECASE)` (line 324):
optional leading whitespace, then `D`, `I`, `M` in either case. -/
def isDimMarker (s : String) : Bool :=
  match s.data.dropWhile pyIsSpace with
  | d :: i :: m :: _ =>
    (d == 'D' || d == 'd') && (i == 'I' || i == 'i') && (m == 'M' || m == 'm')
  | _ => false

/-- `" ".join(cell for cell in row_cells if cell).strip()` (line 325). -/
def joinNonEmptyCells (row : List String) : String :=
  pyStrip (pyJoin " " (row.filter (fun c => c != "")))

/-- One canonical output record, in the `EXCEL_OUTPUT_COLUMNS` order
`['序号', '特征名称', '实际值', '名义值', '上公差', '下公差', '偏差', '超差', '备注']`. -/
structure ExcelRecord where
  seq : ℕ
  feature : String
  actual : String
  nominal : String
  upperTol : String
  lowerTol : String
  deviation : String
  overTol : String
  remarks : String
deriving DecidableEq, Repr

/-- `direct_map_kan_indices` (line 340): the set of directly mapped column
indices, kept as a list of optional indices exactly as Python builds the
set (a `None` member never equals a running index). -/
def directMapKanIdxs (numCols : ℕ) : List (Option ℕ) :=
  [kanIdx numCols "测定", kanIdx numCols "标称值", kanIdx numCols "正公差",
   kanIdx numCols "负公差", kanIdx numCols "偏差", kanIdx numCols "超差",
   kanIdx numCols "轴"]

/-- `other_kan_values` (lines 339-343): every effective header column not
directly mapped, in range of the row, and with a non-empty cell becomes a
`"name: value"` entry. -/
def otherKanValues (numCols : ℕ) (row : List String) : List String :=
  (KAN_HEADERS_TEMPLATE.take numCols).enum.filterMap (fun p =>
    if ¬ (directMapKanIdxs numCols).contains (some p.1) ∧ p.1 < row.length ∧
        row.getD p.1 "" ≠ "" then
      some (p.2 ++ ": " ++ row.getD p.1 "")
    else none)

/-- The `remarks` cell (lines 336-345): the axis entry first (when the axis
column exists and is non-empty), then the joined `other_kan_values`, all
joined by `"; "` and stripped. -/
def mkRemarks (numCols : ℕ) (row : List String) : String :=
  let axisPart : List String :=
    match kanIdx numCols "轴" with
    | some k =>
      if k < row.length ∧ row.getD k "" ≠ "" then ["轴: " ++ row.getD k ""]
      else []
    | none => []
  let others := otherKanValues numCols row
  pyStrip (pyJoin "; " (axisPart ++ (if others ≠ [] then [pyJoin "; " others] else [])))

/-- The Excel row emitted for one data row (lines 328-345). -/
def mkExcelRow (numCols serial : ℕ) (feature : String) (row : List String) :
    ExcelRecord where
  seq := serial
  feature := feature
  actual := cellAt row (kanIdx numCols "测定")
  nominal := cellAt row (kanIdx numCols "标称值")
  upperTol := cellAt row (kanIdx numCols "正公差")
  lowerTol := cellAt row (kanIdx numCols "负公差")
  deviation := cellAt row (kanIdx numCols "偏差")
  overTol := cellAt row (kanIdx numCols "超差")
  remarks := mkRemarks numCols row

/-- The row loop of `structure_data_for_excel` (lines 321-347): `i` is the
running row index, `feat` the sticky `current_feature_name`, `serial` the
next `item_serial_number`.  All-empty rows are skipped; a row whose first
cell matches the DIM marker updates the feature name and is not emitted;
a row whose index is in `data_row_indices` is emitted with the current
feature name and the next serial number. -/
def sdfeGo (dataRowIndices : List ℕ) (numCols : ℕ) :
    ℕ → String → ℕ → List (List String) → List ExcelRecord
  | _, _, _, [] => []
  | i, feat, serial, row :: rest =>
    if row.all (fun c => c == "") then
      sdfeGo dataRowIndices numCols (i + 1) feat serial rest
    else if isDimMarker (pyStrip (row.headD "")) then
      sdfeGo dataRowIndices numCols (i + 1) (joinNonEmptyCells row) serial rest
    else if dataRowIndices.contains i then
      mkExcelRow numCols serial feat row ::
        sdfeGo dataRowIndices numCols (i + 1) feat (serial + 1) rest
    else sdfeGo dataRowIndices numCols (i + 1) feat serial rest

/-- `structure_data_for_excel` (lines 306-348 of `config_manager.py`):
`current_feature_name` starts as `"N/A"`, `item_serial_number` as 1. -/
def structure_data_for_excel (grid : List (List String))
    (dataRowIndices : List ℕ) (numCols : ℕ) : List ExcelRecord :=
  sdfeGo dataRowIndices numCols 0 "N/A" 1 grid

/-- The 9-column template header row as a token line. -/
def kanHeaderTokens : List Token :=
  [⟨"轴", 10, 30, 0⟩, ⟨"标称值", 60, 80, 0⟩, ⟨"正公差", 110, 130, 0⟩,
   ⟨"负公差", 160, 180, 0⟩, ⟨"测定", 210, 230, 0⟩, ⟨"最大值", 260, 280, 0⟩,
   ⟨"最小值", 310, 330, 0⟩, ⟨"偏差", 360, 380, 0⟩, ⟨"超差", 410, 430, 0⟩]

/-- A data row beginning `["X", "10.00", "0.05", "-0.05", "10.02", ...]`
as a token line. -/
def kanDataTokens : List Token :=
  [⟨"X", 10, 30, 20⟩, ⟨"10.00", 60, 80, 20⟩, ⟨"0.05", 110, 130, 20⟩,
   ⟨"-0.05", 160, 180, 20⟩, ⟨"10.02", 210, 230, 20⟩, ⟨"10.03", 260, 280, 20⟩,
   ⟨"10.01", 310, 330, 20⟩, ⟨"0.02", 360, 380, 20⟩, ⟨"0.00", 410, 430, 20⟩]

/-! ## Filename sanitisation (`sanitize_filename_component`, lines 50-74) -/
/-- Model of Python's unicode word-character class `\w` restricted to the
character repertoire of this pipeline: ASCII alphanumerics, the underscore,
and CJK unified ideographs.  (Other unicode word characters are not
modelled; none occur in the template or in the documents handled here.) -/
def pyIsWordChar (c : Char) : Bool :=
  c.isAlphanum || c == '_' || (0x4E00 ≤ c.toNat && c.toNat ≤ 0x9FFF)

/-- The characters the sanitiser keeps: `\w`, dots and hyphens. -/
def allowedFilenameChar (c : Char) : Bool :=
  pyIsWordChar c || c == '.' || c == '-'

/-- `re.sub(r'[^\w.-]', '_', text)` (line 60): replace every character that
is not a word character, dot or hyphen with an underscore. -/
def sanitizeSub (s : String) : String :=
  String.mk (s.data.map (fun c => if allowedFilenameChar c then c else '_'))

/-- Lines 63-64: replace a leading hyphen or dot with an underscore. -/
def fixLeading (s : String) : String :=
  if s.data.headD ' ' = '-' ∨ s.data.headD ' ' = '.' then
    String.mk ('_' :: s.data.tail)
  else s

/-- `re.sub(r'_+', '_', text)` (line 67): collapse every run of
underscores into a single underscore.  (Structural formulation: an
underscore is dropped exactly when the next character is also an
underscore, so each maximal run keeps only its last underscore.) -/
def collapseUAux : List Char → List Char
  | [] => []
  | c :: rest =>
    if c = '_' ∧ rest.headD ' ' = '_' then collapseUAux rest
    else c :: collapseUAux rest

/-- String version of `collapseUAux`. -/
def collapseUnderscores (s : String) : String := String.mk (collapseUAux s.data)

/-- `text.strip('_')` (line 70): remove leading and trailing underscores. -/
def stripUnderscores (s : String) : String :=
  String.mk (((s.data.dropWhile (fun c => c == '_')).reverse.dropWhile
    (fun c => c == '_')).reverse)

/-- The sanitisation pipeline of lines 56-70 (strip, substitute, fix the
leading character, collapse underscores, strip underscores), before the
empty-result fallback. -/
def sanitizeCore (text : String) : String :=
  stripUnderscores (collapseUnderscores (fixLeading (sanitizeSub (pyStrip text))))

/-- `sanitize_filename_component` (lines 50-74 of `config_manager.py`). -/
def sanitize_filename_component (text dflt : String) : String :=
  if text = "" ∨ pyStrip text = "" then dflt
  else if sanitizeCore text = "" then dflt
  else sanitizeCore text

/-! ## Top-level info extraction (`extract_top_level_info_from_grid`,
lines 271-303) -/
/-- `os.path.splitext(filename)[0]`: the filename minus its extension.
The extension starts at the last dot, except when every character before
that dot is itself a dot (leading dots do not start an extension). -/
def lastDotIdx (cs : List Char) : Option ℕ :=
  match cs.reverse.findIdx? (fun c => c == '.') with
  | some k => some (cs.length - 1 - k)
  | none => none

/-- See `lastDotIdx`. -/
def pySplitextStem (s : String) : String :=
  match lastDotIdx s.data with
  | some p =>
    if ((s.data.takeWhile (fun c => c == '.')).length) < p then
      String.mk (s.data.take p)
    else s
  | none => s

/-- The greedy tail of the capture group `([^\s]+(?:[\s_][^\s]+)*)`
(lines 275-276): after the initial non-space run, repeatedly consume one
whitespace-or-underscore separator followed by a non-space run, as long as
possible. -/
def captureTail (cs : List Char) : List Char :=
  match cs with
  | sep :: d :: rest =>
    if (pyIsSpace sep || sep == '_') && !pyIsSpace d then
      sep :: ((d :: rest).takeWhile (fun c => !pyIsSpace c)) ++
        captureTail ((d :: rest).dropWhile (fun c => !pyIsSpace c))
    else []
  | _ => []
termination_by cs.length
decreasing_by
  simp only [List.length_cons]
  have := (List.dropWhile_sublist (l := d :: rest)
    (fun c => !pyIsSpace c)).length_le
  simp only [List.length_cons] at this
  omega

/-- `\s*:\s*` followed by the capture `([^\s]+(?:[\s_][^\s]+)*)`: skip
whitespace, require a literal colon, skip whitespace, then capture at least
one non-space character greedily. -/
def matchColonCapture (cs : List Char) : Option (List Char) :=
  match cs.dropWhile pyIsSpace with
  | ':' :: cs2 =>
    let cs3 := cs2.dropWhile pyIsSpace
    let run := cs3.takeWhile (fun c => !pyIsSpace c)
    if run = [] then none
    else some (run ++ captureTail (cs3.dropWhile (fun c => !pyIsSpace c)))
  | _ => none

/-- Try the keyword alternatives, in regex alternation order, at the
current position. -/
def tryKeywordsAt (kws : List String) (cs : List Char) : Option (List Char) :=
  match kws with
  | [] => none
  | kw :: kws' =>
    if kw.data.isPrefixOf cs then
      match matchColonCapture (cs.drop kw.data.length) with
      | some cap => some cap
      | none => tryKeywordsAt kws' cs
    else tryKeywordsAt kws' cs

/-- `re.search(r'(?:kw1|kw2|...)\s*:\s*(...)', text)`: the leftmost
position where some alternative (tried left to right) matches, returning
the captured group. -/
def searchKV (kws : List String) : List Char → Option (List Char)
  | [] => none
  | c :: rest =>
    match tryKeywordsAt kws (c :: rest) with
    | some cap => some cap
    | none => searchKV kws rest

/-- The part-identifier alternatives `零件名|零件|部件名|部件` (line 275). -/
def partKeywords : List String := ["零件名", "零件", "部件名", "部件"]

/-- The serial-number alternatives `序列号|序号|编号` (line 276). -/
def serialKeywords : List String := ["序列号", "序号", "编号"]

/-- The part-identifier search of line 275 (case-insensitivity is
irrelevant: the keywords contain no cased letters). -/
def part_search (s : String) : Option String :=
  (searchKV partKeywords s.data).map String.mk

/-- The serial-number search of line 276. -/
def serial_search (s : String) : Option String :=
  (searchKV serialKeywords s.data).map String.mk

/-- `" ".join(cell for cell in row if cell).replace("：", ":")`
(line 274). -/
def rowTextOf (row : List String) : String :=
  String.mk ((pyJoin " " (row.filter (fun c => c != ""))).data.map
    (fun c => if c = '：' then ':' else c))

/-- Python `row_text.find(sub)` / `row_text.index(sub)` on character
positions; the substring is always present where the source uses it (the
capture was taken from `row_text` itself), so the not-found value is never
observed. -/
def strFindAux (needle : List Char) : List Char → ℕ → ℕ
  | [], i => i
  | c :: rest, i =>
    if needle.isPrefixOf (c :: rest) then i else strFindAux needle rest (i + 1)

/-- See `strFindAux`. -/
def strFind (hay needle : String) : ℕ := strFindAux needle.data hay.data 0

/-- Lines 288-294: locate the cell containing character position
`startIdx` of the joined row text, by scanning the row's cells and adding
one per separating space. -/
def findSerialCellIdx : List String → ℕ → ℕ → ℕ → Option ℕ
  | [], _, _, _ => none
  | cell :: rest, idx, charCount, startIdx =>
    if charCount ≤ startIdx ∧ startIdx < charCount + cell.data.length + 1 then
      some idx
    else findSerialCellIdx rest (idx + 1) (charCount + cell.data.length + 1)
      startIdx

/-- The serial-extension heuristic of lines 283-298: when the crude length
test passes and the cell after the one holding the captured serial is
non-empty, append that cell's text, separated by a space. -/
def extendSerial (gridLen rowIdx : ℕ) (row : List String)
    (rowText extracted : String) : String :=
  if rowIdx < gridLen ∧
      (strFind rowText extracted + extracted.data.length) / 10 < row.length then
    match findSerialCellIdx row 0 0 (strFind rowText extracted) with
    | some k =>
      if k + 1 < row.length ∧ row.getD (k + 1) "" ≠ "" then
        extracted ++ " " ++ row.getD (k + 1) ""
      else extracted
    | none => extracted
  else extracted

/-- The `part_name` / `serial_number` pair returned by the extractor. -/
structure TopInfo where
  part_name : String
  serial_number : String
deriving DecidableEq, Repr

/-- Processing one of the first five grid rows (lines 273-301): a part
match replaces `part_name` with the sanitised capture, a serial match
replaces `serial_number` with the sanitised (possibly extended) capture;
there is no early exit, so later rows overwrite earlier matches. -/
def processInfoRow (gridLen rowIdx : ℕ) (row : List String)
    (info : TopInfo) : TopInfo :=
  let rowText := rowTextOf row
  let info1 :=
    match part_search rowText with
    | some cap =>
      let nm :=
        sanitize_filename_component (pyStrip cap)
          ("PartRow" ++ toString rowIdx)
      { info with part_name := nm }
    | none => info
  match serial_search rowText with
  | some cap =>
    let sn :=
      sanitize_filename_component
        (extendSerial gridLen rowIdx row rowText (pyStrip cap))
        ("SerialRow" ++ toString rowIdx)
    { info1 with serial_number := sn }
  | none => info1

/-- The loop over `grid_data[:5]` (line 273). -/
def topInfoGo (gridLen : ℕ) : ℕ → List (List String) → TopInfo → TopInfo
  | _, [], info => info
  | rowIdx, row :: rest, info =>
    topInfoGo gridLen (rowIdx + 1) rest (processInfoRow gridLen rowIdx row info)

/-- `extract_top_level_info_from_grid` (lines 271-303 of
`config_manager.py`): `part_name` starts as the sanitised filename stem
(default `"UnknownPart"`), `serial_number` starts empty and falls back to
`"NoSerial"` when no match set it. -/
def extract_top_level_info_from_grid (grid : List (List String))
    (pdfFilename : String) : TopInfo :=
  let info0 : TopInfo :=
    { part_name :=
        sanitize_filename_component (pySplitextStem pdfFilename) "UnknownPart"
      serial_number := "" }
  let r := topInfoGo grid.length 0 (grid.take 5) info0
  { r with serial_number :=
      if r.serial_number = "" then "NoSerial" else r.serial_number }


/-! ### Properties of line reconstruction -/
theorem sortLineByX0_perm (l : List Token) : (sortLineByX0 l).Perm l :=
  List.perm_insertionSort _ _

theorem sortWordsByTopX0_perm (ws : List Token) : (sortWordsByTopX0 ws).Perm ws :=
  List.perm_insertionSort _ _

theorem sortWordsByTopX0_sorted (ws : List Token) :
    List.Sorted (fun a b : Token => a.top ≤ b.top) (sortWordsByTopX0 ws) := by
  have h := List.sorted_insertionSort lexTopX0 ws
  refine h.imp ?_
  intro a b hab
  rcases hab with h1 | ⟨h1, _⟩
  · exact le_of_lt h1
  · exact le_of_eq h1

theorem reconstructAux_flatten_perm (tol : ℚ) :
    ∀ (ws : List Token) (f : Token) (cur : List Token),
      (reconstructAux tol f cur ws).flatten.Perm (f :: (cur ++ ws))
  | [], f, cur => by
      simpa [reconstructAux] using sortLineByX0_perm (f :: cur)
  | w :: ws, f, cur => by
      by_cases h : |w.top - f.top| ≤ tol
      · rw [reconstructAux, if_pos h]
        have ih := reconstructAux_flatten_perm tol ws f (cur ++ [w])
        simpa [List.append_assoc] using ih
      · rw [reconstructAux, if_neg h]
        rw [List.flatten_cons]
        have ih := reconstructAux_flatten_perm tol ws w []
        have h2 := (sortLineByX0_perm (f :: cur)).append ih
        simpa using h2

theorem lineFirstTop_sortLine_mem (l : List Token) (hl : l ≠ []) :
    ∃ t ∈ l, lineFirstTop (sortLineByX0 l) = t.top := by
  have hp := sortLineByX0_perm l
  have hne : sortLineByX0 l ≠ [] := by
    intro h
    apply hl
    have hlen := hp.length_eq
    rw [h] at hlen
    exact List.eq_nil_of_length_eq_zero hlen.symm
  obtain ⟨t, rest, ht⟩ := List.exists_cons_of_ne_nil hne
  refine ⟨t, ?_, ?_⟩
  · have hmem : t ∈ sortLineByX0 l := by
      rw [ht]; exact List.mem_cons_self _ _
    exact hp.mem_iff.mp hmem
  · rw [ht]; rfl

theorem reconstructAux_chain (tol : ℚ) (htol : 0 ≤ tol) :
    ∀ (ws : List Token) (f : Token) (cur : List Token),
      List.Sorted (fun a b : Token => a.top ≤ b.top) (f :: (cur ++ ws)) →
      (∀ t ∈ cur, t.top ≤ f.top + tol) →
      reconstructAux tol f cur ws ≠ [] ∧
      List.Chain' (fun l₁ l₂ => lineFirstTop l₁ ≤ lineFirstTop l₂)
        (reconstructAux tol f cur ws) ∧
      f.top ≤ lineFirstTop ((reconstructAux tol f cur ws).headD [])
  | [], f, cur => by
      intro hsorted _
      refine ⟨by simp [reconstructAux], by simp [reconstructAux], ?_⟩
      obtain ⟨t, htmem, hteq⟩ := lineFirstTop_sortLine_mem (f :: cur) (by simp)
      have hft : f.top ≤ t.top := by
        rcases List.mem_cons.mp htmem with rfl | hmem
        · exact le_refl _
        · have := (List.sorted_cons.mp hsorted).1 t (by simpa using hmem)
          exact this
      simpa [reconstructAux, hteq] using hft
  | w :: ws, f, cur => by
      intro hsorted hcur
      by_cases h : |w.top - f.top| ≤ tol
      · rw [reconstructAux, if_pos h]
        have hsorted' :
            List.Sorted (fun a b : Token => a.top ≤ b.top)
              (f :: ((cur ++ [w]) ++ ws)) := by
          simpa [List.append_assoc] using hsorted
        have hcur' : ∀ t ∈ cur ++ [w], t.top ≤ f.top + tol := by
          intro t ht
          rcases List.mem_append.mp ht with hmem | hmem
          · exact hcur t hmem
          · have : t = w := by simpa using hmem
            subst this
            have := (abs_le.mp h).2
            linarith
        exact reconstructAux_chain tol htol ws f (cur ++ [w]) hsorted' hcur'
      · rw [reconstructAux, if_neg h]
        have hconsmem : ∀ b ∈ cur ++ w :: ws, f.top ≤ b.top :=
          (List.sorted_cons.mp hsorted).1
        have htail : List.Sorted (fun a b : Token => a.top ≤ b.top) (cur ++ w :: ws) :=
          (List.sorted_cons.mp hsorted).2
        have hsorted'' :
            List.Sorted (fun a b : Token => a.top ≤ b.top) (w :: ([] ++ ws)) := by
          have hsub : (w :: ws).Sublist (cur ++ w :: ws) :=
            List.sublist_append_right cur (w :: ws)
          simpa using List.Pairwise.sublist hsub htail
        obtain ⟨ihne, ihchain, ihhead⟩ :=
          reconstructAux_chain tol htol ws w [] hsorted'' (by simp)
        have hfw : f.top ≤ w.top := hconsmem w (by simp)
        have hwgt : f.top + tol < w.top := by
          have habs : |w.top - f.top| = w.top - f.top :=
            abs_of_nonneg (by linarith)
          have := not_le.mp h
          rw [habs] at this
          linarith
        obtain ⟨t, htmem, hteq⟩ := lineFirstTop_sortLine_mem (f :: cur) (by simp)
        have htle : t.top ≤ f.top + tol := by
          rcases List.mem_cons.mp htmem with rfl | hmem
          · linarith
          · exact hcur t hmem
        have hflink : lineFirstTop (sortLineByX0 (f :: cur)) ≤
            lineFirstTop ((reconstructAux tol w [] ws).headD []) := by
          rw [hteq]
          have : t.top < w.top := lt_of_le_of_lt htle hwgt
          exact le_trans (le_of_lt this) ihhead
        refine ⟨by simp, ?_, ?_⟩
        · rw [List.chain'_cons']
          refine ⟨?_, ihchain⟩
          intro y hy
          have hhead : (reconstructAux tol w [] ws).headD [] = y := by
            obtain ⟨z, zs, hz⟩ := List.exists_cons_of_ne_nil ihne
            rw [hz] at hy ⊢
            simpa using Option.some_inj.mp hy
          rw [← hhead]
          exact hflink
        · obtain ⟨t2, ht2mem, ht2eq⟩ := lineFirstTop_sortLine_mem (f :: cur) (by simp)
          have : f.top ≤ t2.top := by
            rcases List.mem_cons.mp ht2mem with rfl | hmem
            · exact le_refl _
            · exact hconsmem t2 (List.mem_append.mpr (Or.inl hmem))
          simpa [ht2eq] using this

/-- **C1**: for every input token list, the clustering step of
`extract_words_and_reconstruct_lines` outputs lines whose tokens, taken
together, are exactly the input tokens (a permutation: no loss, no
duplication), and the lines appear in non-decreasing vertical order of their
first token's `top`. -/
theorem C1_line_reconstruction (ws : List Token) :
    (extract_words_and_reconstruct_lines LINE_TOLERANCE ws).flatten.Perm ws ∧
    List.Chain' (fun l₁ l₂ => lineFirstTop l₁ ≤ lineFirstTop l₂)
      (extract_words_and_reconstruct_lines LINE_TOLERANCE ws) := by
  unfold extract_words_and_reconstruct_lines
  have hp := sortWordsByTopX0_perm ws
  have hsort := sortWordsByTopX0_sorted ws
  cases hs : sortWordsByTopX0 ws with
  | nil =>
      rw [hs] at hp
      have : ws = [] := hp.symm.eq_nil
      subst this
      simp
  | cons w rest =>
      rw [hs] at hp hsort
      constructor
      · have h1 := reconstructAux_flatten_perm LINE_TOLERANCE rest w []
        have h2 : (w :: ([] ++ rest)).Perm ws := by simpa using hp
        exact h1.trans h2
      · have hsorted : List.Sorted (fun a b : Token => a.top ≤ b.top)
            (w :: ([] ++ rest)) := by simpa using hsort
        have htol : (0 : ℚ) ≤ LINE_TOLERANCE := by norm_num [LINE_TOLERANCE]
        exact (reconstructAux_chain LINE_TOLERANCE htol rest w [] hsorted
          (by simp)).2.1

theorem lineIsDataRow_iff_amended (lw : List Token) :
    lineIsDataRow lw = true ↔ amendedDataRowTest lw = true := by
  match lw with
  | [] => simp [lineIsDataRow, amendedDataRowTest, DATA_ROW_MIN_COLUMNS]
  | [w] => simp [lineIsDataRow, amendedDataRowTest, DATA_ROW_MIN_COLUMNS]
  | w :: r :: rs =>
    have hlen2 : ¬ (w :: r :: rs).length < DATA_ROW_MIN_COLUMNS := by
      simp only [DATA_ROW_MIN_COLUMNS, List.length_cons]
      omega
    unfold lineIsDataRow amendedDataRowTest
    rw [if_neg hlen2]
    simp only [List.headD_cons, List.drop_succ_cons, List.drop_zero]
    by_cases haxis : (axisCodes.contains (pyUpper (pyStrip w.text)) ||
        isSingleUpperLetter (pyUpper (pyStrip w.text))) = true
    · rw [if_pos haxis, haxis]
      have h2 : decide (DATA_ROW_MIN_COLUMNS ≤ (w :: r :: rs).length) = true := by
        simp only [decide_eq_true_eq, DATA_ROW_MIN_COLUMNS, List.length_cons]
        omega
      rw [h2]
      simp
    · rw [if_neg haxis]
      rw [if_pos (show (1 : ℕ) < (w :: r :: rs).length by
        simp only [List.length_cons]; omega)]
      rw [Bool.not_eq_true] at haxis
      rw [haxis]
      simp only [Bool.and_false, Bool.false_or, Bool.false_and]
      have h23 : decide (2 < (w :: r :: rs).length) =
          decide (3 ≤ (w :: r :: rs).length) :=
        decide_eq_decide.mpr (by omega)
      have h11 : decide (DATA_ROW_MIN_COLUMNS - 1 ≤
          ((r :: rs).filter (fun t => is_numeric t.text)).length) =
          decide (1 ≤ ((r :: rs).filter (fun t => is_numeric t.text)).length) :=
        decide_eq_decide.mpr (by simp [DATA_ROW_MIN_COLUMNS])
      rw [h23, h11]

theorem mem_dataRowsFrom :
    ∀ (ls : List (List Token)) (i j : ℕ),
      j ∈ dataRowsFrom i ls ↔
        ∃ k, i + k = j ∧ ∃ lw, ls[k]? = some lw ∧ lineIsDataRow lw = true
  | [], i, j => by simp [dataRowsFrom]
  | lw :: rest, i, j => by
    rw [dataRowsFrom]
    by_cases hd : lineIsDataRow lw
    · rw [if_pos hd, List.mem_cons, mem_dataRowsFrom rest (i + 1) j]
      constructor
      · rintro (rfl | ⟨k, hk, lw', hget, hd'⟩)
        · exact ⟨0, by omega, lw, by simp, hd⟩
        · exact ⟨k + 1, by omega, lw', by simpa using hget, hd'⟩
      · rintro ⟨k, hk, lw', hget, hd'⟩
        cases k with
        | zero => left; omega
        | succ k' =>
          right
          exact ⟨k', by omega, lw', by simpa using hget, hd'⟩
    · rw [if_neg hd, mem_dataRowsFrom rest (i + 1) j]
      constructor
      · rintro ⟨k, hk, lw', hget, hd'⟩
        exact ⟨k + 1, by omega, lw', by simpa using hget, hd'⟩
      · rintro ⟨k, hk, lw', hget, hd'⟩
        cases k with
        | zero =>
          exfalso
          apply hd
          have : lw' = lw := by
            have h0 : some lw = some lw' := by simpa using hget
            exact (Option.some_inj.mp h0).symm
          rw [← this]
          exact hd'
        | succ k' =>
          exact ⟨k', by omega, lw', by simpa using hget, hd'⟩

/-- **C6 counterexample**: the claim's data-row test, as worded, accepts the
one-token line `["X"]` through alternative (a) ("regardless of remaining
content"), but `identify_data_rows_and_header_ref` skips every line with
fewer than `DATA_ROW_MIN_COLUMNS = 2` tokens before the axis-code check, so
the code does not classify that line as a data row. -/
theorem C6_counterexample :
    claimDataRowTest [xTok] = true ∧ identify_data_rows [[xTok]] = [] := by
  constructor
  · decide
  · decide

/-- **C6 amended**: a line is classified as a data row (its index is in
`data_row_indices`) iff it has at least 2 tokens and its first token's text
matches the fixed axis-label codes, OR it has at least 3 tokens, at least
one of its remaining tokens is numeric, and the fraction of its remaining
tokens that parse as numeric is at least the threshold 1/2. -/
theorem C6_data_row_iff (lines : List (List Token)) (i : ℕ) :
    i ∈ identify_data_rows lines ↔
      ∃ lw, lines[i]? = some lw ∧ amendedDataRowTest lw = true := by
  unfold identify_data_rows
  rw [mem_dataRowsFrom]
  constructor
  · rintro ⟨k, hk, lw, hget, hd⟩
    have hki : k = i := by omega
    subst hki
    exact ⟨lw, hget, (lineIsDataRow_iff_amended lw).mp hd⟩
  · rintro ⟨lw, hget, hd⟩
    exact ⟨i, by omega, lw, hget, (lineIsDataRow_iff_amended lw).mpr hd⟩

/-! ### Properties of boundary inference -/
theorem boundaryLoop_length (maxX : ℚ) :
    ∀ (starts : List ℚ) (cur : ℚ),
      (boundaryLoop maxX cur starts).length = starts.length
  | [], _ => rfl
  | _ :: rest, cur => by
    rw [boundaryLoop]
    simpa using boundaryLoop_length maxX rest _

theorem boundaryLoop_getLastD_snd (maxX : ℚ) :
    ∀ (starts : List ℚ) (cur : ℚ) (d : ℚ × ℚ), starts ≠ [] →
      ((boundaryLoop maxX cur starts).getLastD d).2 = maxX
  | [], _, _, h => absurd rfl h
  | [s], cur, d, _ => by
    rw [boundaryLoop, boundaryLoop]
    simp [boundaryStep, boundaryColEnd]
  | s :: s' :: rest, cur, d, _ => by
    rw [boundaryLoop, List.getLastD_cons]
    exact boundaryLoop_getLastD_snd maxX (s' :: rest) _ _ (by simp)

theorem boundaryColEnd_gt (maxX cur s : ℚ) (rest : List ℚ)
    (hcur : cur < maxX) : cur < boundaryColEnd maxX cur s rest := by
  unfold boundaryColEnd
  cases rest with
  | nil => exact hcur
  | cons s' rest' =>
    show cur < (if (s + s') / 2 ≤ cur + 1 then cur + 10 else (s + s') / 2)
    by_cases hle : (s + s') / 2 ≤ cur + 1
    · rw [if_pos hle]; linarith
    · rw [if_neg hle]; push_neg at hle; linarith

theorem boundaryStep_fst (maxX cur s : ℚ) (rest : List ℚ)
    (hcur : cur < maxX) : (boundaryStep maxX cur s rest).1 = cur := by
  have ha0 : min cur (if s > cur then s else cur) = cur := by
    by_cases hs : s > cur
    · rw [if_pos hs]
      exact min_eq_left (le_of_lt hs)
    · rw [if_neg hs]
      exact min_self cur
  have hend := boundaryColEnd_gt maxX cur s rest hcur
  unfold boundaryStep
  simp only [ha0]
  rw [if_neg (not_le.mpr hend)]

theorem fixLastBoundary_eq_self (bs : List (ℚ × ℚ)) (minX maxX : ℚ) (N : ℕ)
    (hne : bs ≠ []) (h : (bs.getLastD (0, 0)).2 = maxX) :
    fixLastBoundary bs minX maxX N = bs := by
  unfold fixLastBoundary
  cases hl : bs.getLast? with
  | none => exact absurd (List.getLast?_eq_none_iff.mp hl) hne
  | some p =>
    obtain ⟨ls, le⟩ := p
    have hle : le = maxX := by
      have hd := List.getLastD_eq_getLast? (0, 0) bs
      rw [hl] at hd
      rw [hd] at h
      exact h
    rw [hle]
    simp

theorem fixLastBoundary_length (bs : List (ℚ × ℚ)) (minX maxX : ℚ) (N : ℕ)
    (hne : bs ≠ []) :
    (fixLastBoundary bs minX maxX N).length = bs.length := by
  unfold fixLastBoundary
  cases hl : bs.getLast? with
  | none => exact absurd (List.getLast?_eq_none_iff.mp hl) hne
  | some p =>
    obtain ⟨ls, le⟩ := p
    show (if le < maxX then
        bs.dropLast ++ [if ls < maxX then (ls, maxX) else (maxX - 10, maxX)]
      else bs).length = bs.length
    by_cases h : le < maxX
    · rw [if_pos h]
      rw [List.length_append, List.length_dropLast]
      have hpos : 1 ≤ bs.length := List.length_pos.mpr hne
      simp only [List.length_cons, List.length_nil]
      omega
    · rw [if_neg h]

theorem avgX0Aux_length (lines : List (List Token)) (source : List ℕ)
    (headerWords : List Token) (numExpected : ℕ) (minX maxX : ℚ) :
    ∀ (k i : ℕ) (acc : List ℚ),
      (avgX0Aux lines source headerWords numExpected minX maxX k i acc).length =
        acc.length + k
  | 0, _, _ => by simp [avgX0Aux]
  | k + 1, i, acc => by
    rw [avgX0Aux]
    rw [avgX0Aux_length lines source headerWords numExpected minX maxX k (i + 1)]
    simp only [List.length_append, List.length_cons, List.length_nil]
    omega

theorem avgX0Starts_length (lines : List (List Token)) (source : List ℕ)
    (headerWords : List Token) (numExpected : ℕ) (minX maxX : ℚ) :
    (avgX0Starts lines source headerWords numExpected minX maxX).length =
      numExpected := by
  unfold avgX0Starts
  rw [avgX0Aux_length]
  simp

/-- **C2 amended**: every result of `define_adaptive_column_boundaries` is a
non-empty boundary list whose first boundary starts at `MIN_X_COORD` and
whose last boundary ends at `MAX_X_COORD`.  (The sortedness and pairwise
non-overlap asserted by the original claim do not hold in general; see the
counterexample.) -/
theorem C2_boundary_endpoints (lines : List (List Token))
    (dataRowIndices : List ℕ) (headerRowIdx numExpected : ℕ) :
    define_adaptive_column_boundaries lines dataRowIndices headerRowIdx
        numExpected ≠ [] ∧
    ((define_adaptive_column_boundaries lines dataRowIndices headerRowIdx
        numExpected).headD (0, 0)).1 = MIN_X_COORD ∧
    ((define_adaptive_column_boundaries lines dataRowIndices headerRowIdx
        numExpected).getLastD (0, 0)).2 = MAX_X_COORD := by
  have hminmax : MIN_X_COORD < MAX_X_COORD := by
    norm_num [MIN_X_COORD, MAX_X_COORD]
  simp only [define_adaptive_column_boundaries]
  by_cases h0 : numExpected = 0
  · rw [if_pos h0]
    exact ⟨by simp, rfl, rfl⟩
  rw [if_neg h0]
  by_cases h1 : dataRowIndices = [] ∧ ¬ headerRowIdx < lines.length
  · rw [if_pos h1]
    exact ⟨by simp, rfl, rfl⟩
  rw [if_neg h1]
  set source := if dataRowIndices = [] then [headerRowIdx] else dataRowIndices
  set headerWords := (lines[headerRowIdx]?).getD []
  set eff := effectiveColStarts lines source headerWords numExpected
    MIN_X_COORD MAX_X_COORD with heff
  by_cases heffnil : eff = []
  · rw [if_pos heffnil]
    exact ⟨by simp, rfl, rfl⟩
  rw [if_neg heffnil]
  obtain ⟨e, es, hcons⟩ := List.exists_cons_of_ne_nil heffnil
  rw [hcons]
  have hblne : boundaryLoop MAX_X_COORD MIN_X_COORD (e :: es) ≠ [] := by
    rw [boundaryLoop]
    exact List.cons_ne_nil _ _
  have hlast : ((boundaryLoop MAX_X_COORD MIN_X_COORD (e :: es)).getLastD
      (0, 0)).2 = MAX_X_COORD :=
    boundaryLoop_getLastD_snd MAX_X_COORD (e :: es) MIN_X_COORD (0, 0) (by simp)
  rw [fixLastBoundary_eq_self _ _ _ _ hblne hlast]
  refine ⟨hblne, ?_, hlast⟩
  rw [boundaryLoop]
  simp only [List.headD_cons]
  exact boundaryStep_fst MAX_X_COORD MIN_X_COORD e es hminmax

/-- **C2 counterexample**: for the single data row whose four tokens all
start at `x0 = 700`, `define_adaptive_column_boundaries` returns
`[(5, 700), (700, 710), (710, 720), (690, 700)]`, which is neither sorted
by interval start nor pairwise non-overlapping (the first and last
intervals overlap on `(690, 700)`). -/
theorem C2_counterexample :
    define_adaptive_column_boundaries
        [[cTok 700, cTok 700, cTok 700, cTok 700]] [0] 0 4 =
      [(5, 700), (700, 710), (710, 720), (690, 700)] ∧
    ¬ List.Chain' (fun p q : ℚ × ℚ => p.1 ≤ q.1)
      [((5 : ℚ), (700 : ℚ)), (700, 710), (710, 720), (690, 700)] ∧
    ¬ List.Pairwise (fun p q : ℚ × ℚ => p.2 ≤ q.1 ∨ q.2 ≤ p.1)
      [((5 : ℚ), (700 : ℚ)), (700, 710), (710, 720), (690, 700)] := by
  refine ⟨?_, ?_, ?_⟩
  · norm_num [define_adaptive_column_boundaries, effectiveColStarts, avgX0Starts,
      avgX0Aux, avgX0Value, columnX0Candidates, meanQ, boundaryLoop, boundaryStep,
      boundaryColEnd, boundaryNewCur, fixLastBoundary, cTok, MIN_X_COORD,
      MAX_X_COORD]
    simp
  · intro h
    have h2 := (List.chain'_cons.mp (List.chain'_cons.mp
      (List.chain'_cons.mp h).2).2).1
    norm_num at h2
  · intro h
    have h2 := (List.pairwise_cons.mp h).1 (690, 700) (by simp)
    norm_num at h2

/-- **C5 amended**: when the expected column count `N` is zero,
`define_adaptive_column_boundaries` returns the single boundary
`[(MIN_X_COORD, MAX_X_COORD)]`; when `N ≥ 1`, there is a source row (some
data row, or the header index in range), and every inferred column start is
at most `MAX_X_COORD`, it returns exactly `N` boundary intervals.  (Without
the last condition, starts beyond `MAX_X_COORD` are filtered out and reduce
the interval count; see the counterexample.) -/
theorem C5_boundary_count (lines : List (List Token))
    (dataRowIndices : List ℕ) (headerRowIdx numExpected : ℕ)
    (hN : numExpected ≠ 0)
    (hsrc : dataRowIndices ≠ [] ∨ headerRowIdx < lines.length)
    (hall : ∀ x ∈ avgX0Starts lines
        (if dataRowIndices = [] then [headerRowIdx] else dataRowIndices)
        ((lines[headerRowIdx]?).getD []) numExpected MIN_X_COORD MAX_X_COORD,
        x ≤ MAX_X_COORD) :
    (define_adaptive_column_boundaries lines dataRowIndices headerRowIdx
      numExpected).length = numExpected ∧
    define_adaptive_column_boundaries lines dataRowIndices headerRowIdx 0 =
      [(MIN_X_COORD, MAX_X_COORD)] := by
  constructor
  · simp only [define_adaptive_column_boundaries]
    rw [if_neg hN]
    rw [if_neg (by
      rintro ⟨hd, hh⟩
      rcases hsrc with h | h
      · exact h hd
      · exact hh h)]
    set source := if dataRowIndices = [] then [headerRowIdx] else dataRowIndices
    set headerWords := (lines[headerRowIdx]?).getD []
    have heffl : (effectiveColStarts lines source headerWords numExpected
        MIN_X_COORD MAX_X_COORD).length = numExpected := by
      unfold effectiveColStarts
      rw [List.length_insertionSort]
      rw [List.filter_eq_self.mpr (by
        intro x hx
        exact decide_eq_true (hall x hx))]
      exact avgX0Starts_length lines source headerWords numExpected
        MIN_X_COORD MAX_X_COORD
    have heffne : effectiveColStarts lines source headerWords numExpected
        MIN_X_COORD MAX_X_COORD ≠ [] := by
      intro h
      rw [h] at heffl
      simp only [List.length_nil] at heffl
      exact hN heffl.symm
    rw [if_neg heffne]
    have hblne : boundaryLoop MAX_X_COORD MIN_X_COORD
        (effectiveColStarts lines source headerWords numExpected
          MIN_X_COORD MAX_X_COORD) ≠ [] := by
      intro h
      have := boundaryLoop_length MAX_X_COORD
        (effectiveColStarts lines source headerWords numExpected
          MIN_X_COORD MAX_X_COORD) MIN_X_COORD
      rw [h] at this
      simp only [List.length_nil] at this
      rw [heffl] at this
      exact hN this.symm
    rw [fixLastBoundary_length _ _ _ _ hblne]
    rw [boundaryLoop_length]
    exact heffl
  · rfl

/-! ### Properties of grid mapping -/
theorem rawOverlap_nonneg (x0 x1 s e : ℚ) : 0 ≤ rawOverlap x0 x1 s e :=
  le_max_left 0 _

theorem wordWidth_pos (x0 x1 : ℚ) : 0 < wordWidth x0 x1 := by
  unfold wordWidth
  by_cases h : x1 > x0
  · rw [if_pos h]; linarith
  · rw [if_neg h]; norm_num

theorem assignWordStep_length (bs : List (ℚ × ℚ)) (cells : List String)
    (w : Token) : (assignWordStep bs cells w).length = cells.length := by
  unfold assignWordStep
  by_cases h : pyStrip w.text = ""
  · rw [if_pos h]
  · rw [if_neg h]
    cases findBestCol bs w.x0 w.x1 with
    | none => rfl
    | some j => simp

theorem assignFold_length (bs : List (ℚ × ℚ)) :
    ∀ (l : List Token) (cells : List String),
      (l.foldl (assignWordStep bs) cells).length = cells.length
  | [], _ => rfl
  | w :: l, cells => by
    rw [List.foldl_cons]
    rw [assignFold_length bs l (assignWordStep bs cells w)]
    exact assignWordStep_length bs cells w

theorem assignLine_length (bs : List (ℚ × ℚ)) (l : List Token) :
    (assignLine bs l).length = bs.length := by
  unfold assignLine
  rw [List.length_map, assignFold_length, List.length_replicate]

/-- **C7**: for every list of reconstructed lines and every non-empty
boundary list, `map_lines_to_grid` produces one grid row per line, and
every grid row has exactly `len(boundaries)` cells. -/
theorem C7_grid_shape (lines : List (List Token)) (bs : List (ℚ × ℚ))
    (hbs : bs ≠ []) :
    (map_lines_to_grid lines bs).length = lines.length ∧
    ∀ row ∈ map_lines_to_grid lines bs, row.length = bs.length := by
  unfold map_lines_to_grid
  rw [if_neg hbs]
  refine ⟨by simp, ?_⟩
  intro row hrow
  rw [List.mem_map] at hrow
  obtain ⟨l, _, rfl⟩ := hrow
  exact assignLine_length bs l

/-- Witness for C7 at a concrete input: one single-token line, one boundary. -/
theorem C7_grid_shape_witness :
    ([((0 : ℚ), (10 : ℚ))] : List (ℚ × ℚ)) ≠ [] ∧
    (map_lines_to_grid [[xTok]] [((0 : ℚ), (10 : ℚ))]).length = 1 := by
  refine ⟨by decide, ?_⟩
  have h := (C7_grid_shape [[xTok]] [((0 : ℚ), (10 : ℚ))] (by decide)).1
  simpa using h

theorem rawOverlap_degenerate (x0 x1 s e : ℚ) (h : e ≤ s) :
    rawOverlap x0 x1 s e = 0 := by
  unfold rawOverlap
  apply max_eq_left
  have h1 : min x1 e ≤ e := min_le_right _ _
  have h2 : s ≤ max x0 s := le_max_right _ _
  linarith

theorem bestColAux_spec (x0 x1 width : ℚ) (hw : 0 < width) (bs : List (ℚ × ℚ)) :
    ∀ (rest : List (ℚ × ℚ)) (i : ℕ) (best : Option ℕ) (maxR : ℚ),
      i + rest.length = bs.length →
      rest = bs.drop i →
      0 ≤ maxR →
      (best = none → maxR = 0) →
      (∀ j, best = some j → j < bs.length ∧
        rawOverlap x0 x1 (bs.getD j (0, 0)).1 (bs.getD j (0, 0)).2 / width = maxR) →
      0 ≤ (bestColAux x0 x1 width rest i (best, maxR)).2 ∧
      ((bestColAux x0 x1 width rest i (best, maxR)).1 = none →
        (bestColAux x0 x1 width rest i (best, maxR)).2 = 0) ∧
      (∀ j, (bestColAux x0 x1 width rest i (best, maxR)).1 = some j →
        j < bs.length ∧
        rawOverlap x0 x1 (bs.getD j (0, 0)).1 (bs.getD j (0, 0)).2 / width =
          (bestColAux x0 x1 width rest i (best, maxR)).2) ∧
      maxR ≤ (bestColAux x0 x1 width rest i (best, maxR)).2 ∧
      (∀ p ∈ rest, rawOverlap x0 x1 p.1 p.2 / width ≤
        (bestColAux x0 x1 width rest i (best, maxR)).2)
  | [], i, best, maxR => by
    intro _ _ h0 hnone hsome
    rw [bestColAux]
    exact ⟨h0, fun h => hnone h, fun j hj => hsome j hj, le_refl _, by simp⟩
  | p :: rest', i, best, maxR => by
    intro hlen hdrop h0 hnone hsome
    obtain ⟨s, e⟩ := p
    have hgi : bs.getD i (0, 0) = (s, e) := by
      have h1 : bs[i]? = some (s, e) := by
        rw [← List.head?_drop, ← hdrop]
        rfl
      rw [List.getD_eq_getElem?_getD, h1]
      rfl
    have hdrop' : rest' = bs.drop (i + 1) := by
      have := congrArg List.tail hdrop
      simpa [List.tail_drop] using this
    have hlen' : (i + 1) + rest'.length = bs.length := by
      simp only [List.length_cons] at hlen
      omega
    by_cases hdeg : s ≥ e
    · rw [show bestColAux x0 x1 width ((s, e) :: rest') i (best, maxR) =
        bestColAux x0 x1 width rest' (i + 1) (best, maxR) by
          rw [bestColAux, if_pos hdeg]]
      obtain ⟨r0, rnone, rsome, rge, rbound⟩ :=
        bestColAux_spec x0 x1 width hw bs rest' (i + 1) best maxR hlen' hdrop' h0 hnone hsome
      refine ⟨r0, rnone, rsome, rge, ?_⟩
      intro q hq
      rcases List.mem_cons.mp hq with rfl | hq'
      · have hz : rawOverlap x0 x1 s e = 0 := rawOverlap_degenerate x0 x1 s e hdeg
        simp only [hz]
        rw [zero_div]
        linarith
      · exact rbound q hq'
    · by_cases hgtr : rawOverlap x0 x1 s e / width > maxR
      · rw [show bestColAux x0 x1 width ((s, e) :: rest') i (best, maxR) =
          bestColAux x0 x1 width rest' (i + 1)
            (some i, rawOverlap x0 x1 s e / width) by
            rw [bestColAux, if_neg hdeg, if_pos hgtr]]
        have h0' : 0 ≤ rawOverlap x0 x1 s e / width := le_trans h0 (le_of_lt hgtr)
        have hsome' : ∀ j, (some i : Option ℕ) = some j → j < bs.length ∧
            rawOverlap x0 x1 (bs.getD j (0, 0)).1 (bs.getD j (0, 0)).2 / width =
              rawOverlap x0 x1 s e / width := by
          intro j hj
          have : i = j := Option.some_inj.mp hj
          subst this
          constructor
          · omega
          · rw [hgi]
        obtain ⟨r0, rnone, rsome, rge, rbound⟩ :=
          bestColAux_spec x0 x1 width hw bs rest' (i + 1)
            (some i) (rawOverlap x0 x1 s e / width) hlen' hdrop' h0'
            (by intro h; cases h) hsome'
        refine ⟨r0, rnone, rsome, le_trans (le_of_lt hgtr) rge, ?_⟩
        intro q hq
        rcases List.mem_cons.mp hq with rfl | hq'
        · exact rge
        · exact rbound q hq'
      · by_cases hfb : rawOverlap x0 x1 s e > 0 ∧ best = none
        · exfalso
          have hm0 : maxR = 0 := hnone hfb.2
          rw [hm0] at hgtr
          exact hgtr (div_pos hfb.1 hw)
        · rw [show bestColAux x0 x1 width ((s, e) :: rest') i (best, maxR) =
            bestColAux x0 x1 width rest' (i + 1) (best, maxR) by
              rw [bestColAux, if_neg hdeg, if_neg hgtr, if_neg hfb]]
          obtain ⟨r0, rnone, rsome, rge, rbound⟩ :=
            bestColAux_spec x0 x1 width hw bs rest' (i + 1) best maxR hlen' hdrop' h0 hnone hsome
          refine ⟨r0, rnone, rsome, rge, ?_⟩
          intro q hq
          rcases List.mem_cons.mp hq with rfl | hq'
          · have : rawOverlap x0 x1 s e / width ≤ maxR := not_lt.mp hgtr
            linarith
          · exact rbound q hq'

theorem bestColAux_all_zero (x0 x1 width : ℚ) :
    ∀ (rest : List (ℚ × ℚ)) (i : ℕ),
      (∀ p ∈ rest, rawOverlap x0 x1 p.1 p.2 = 0) →
      bestColAux x0 x1 width rest i (none, 0) = (none, 0)
  | [], _, _ => by rw [bestColAux]
  | p :: rest', i, hall => by
    obtain ⟨s, e⟩ := p
    have hz : rawOverlap x0 x1 s e = 0 := hall (s, e) (by simp)
    by_cases hdeg : s ≥ e
    · rw [bestColAux, if_pos hdeg]
      exact bestColAux_all_zero x0 x1 width rest' (i + 1)
        (fun q hq => hall q (by simp [hq]))
    · rw [bestColAux, if_neg hdeg,
        if_neg (by rw [hz, zero_div]; exact lt_irrefl 0),
        if_neg (by
          rintro ⟨h1, _⟩
          rw [hz] at h1
          exact lt_irrefl 0 h1)]
      exact bestColAux_all_zero x0 x1 width rest' (i + 1)
        (fun q hq => hall q (by simp [hq]))

/-- **C8**: in the grid mapper, a token assigned to a column (`some j`)
achieves the maximal overlap ratio `max(0, min(x1, end) - max(x0, start)) /
max(1, x1 - x0)` over all columns, and a token is dropped (`none`) exactly
when no column has positive raw overlap with it — in particular, when all
ratios are zero there is no column with positive raw overlap, so the claim's
fallback case never fires and the token is dropped. -/
theorem C8_token_assignment (bs : List (ℚ × ℚ)) (x0 x1 : ℚ) :
    (∀ j, findBestCol bs x0 x1 = some j →
      j < bs.length ∧
      ∀ k, k < bs.length →
        ratioSpec x0 x1 (bs.getD k (0, 0)).1 (bs.getD k (0, 0)).2 ≤
          ratioSpec x0 x1 (bs.getD j (0, 0)).1 (bs.getD j (0, 0)).2) ∧
    (findBestCol bs x0 x1 = none ↔
      ∀ k, k < bs.length →
        rawOverlap x0 x1 (bs.getD k (0, 0)).1 (bs.getD k (0, 0)).2 = 0) := by
  have hw := wordWidth_pos x0 x1
  obtain ⟨r0, rnone, rsome, rge, rbound⟩ :=
    bestColAux_spec x0 x1 (wordWidth x0 x1) hw bs bs 0 none 0
      (by simp) (by simp) (le_refl 0) (fun _ => rfl) (by intro j hj; cases hj)
  constructor
  · intro j hj
    obtain ⟨hjlen, hjeq⟩ := rsome j hj
    refine ⟨hjlen, ?_⟩
    intro k hk
    have hmem : bs.getD k (0, 0) ∈ bs := by
      rw [List.getD_eq_getElem bs (0, 0) hk]
      exact List.getElem_mem hk
    have hb := rbound (bs.getD k (0, 0)) hmem
    rw [← hjeq] at hb
    have hraw : rawOverlap x0 x1 (bs.getD k (0, 0)).1 (bs.getD k (0, 0)).2 ≤
        rawOverlap x0 x1 (bs.getD j (0, 0)).1 (bs.getD j (0, 0)).2 :=
      (div_le_div_iff_of_pos_right hw).mp hb
    have hmax : (0 : ℚ) < max 1 (x1 - x0) :=
      lt_of_lt_of_le one_pos (le_max_left _ _)
    unfold ratioSpec
    exact (div_le_div_iff_of_pos_right hmax).mpr hraw
  · constructor
    · intro h k hk
      have hmem : bs.getD k (0, 0) ∈ bs := by
        rw [List.getD_eq_getElem bs (0, 0) hk]
        exact List.getElem_mem hk
      have hb := rbound (bs.getD k (0, 0)) hmem
      rw [rnone h] at hb
      have hle : rawOverlap x0 x1 (bs.getD k (0, 0)).1 (bs.getD k (0, 0)).2 ≤ 0 := by
        by_contra hpos
        push_neg at hpos
        have := div_pos hpos hw
        linarith
      exact le_antisymm hle (rawOverlap_nonneg _ _ _ _)
    · intro h
      unfold findBestCol
      rw [bestColAux_all_zero x0 x1 (wordWidth x0 x1) bs 0 (by
        intro p hp
        obtain ⟨n, hn, hnp⟩ := List.mem_iff_getElem.mp hp
        have := h n hn
        rw [List.getD_eq_getElem bs (0, 0) hn, hnp] at this
        exact this)]

/-- Witness for C8 at a concrete input: a degenerate boundary, so the
token is dropped. -/
theorem C8_token_assignment_witness :
    findBestCol [((5 : ℚ), (3 : ℚ))] 0 1 = none :=
  (C8_token_assignment [((5 : ℚ), (3 : ℚ))] 0 1).2.mpr (by
    intro k hk
    simp only [List.length_cons, List.length_nil] at hk
    interval_cases k
    norm_num [rawOverlap, min_def, max_def, List.getD_cons_zero])

/-- **C5 counterexample**: with expected column count `N = 2` but one
inferred column start (`800`) beyond `MAX_X_COORD = 700`, the start is
filtered out and `define_adaptive_column_boundaries` returns a single
boundary interval rather than 2. -/
theorem C5_counterexample :
    (define_adaptive_column_boundaries [[cTok 10, cTok 800]] [0] 0 2).length
      = 1 ∧ (1 : ℕ) ≠ 2 := by
  constructor
  · norm_num [define_adaptive_column_boundaries, effectiveColStarts, avgX0Starts,
      avgX0Aux, avgX0Value, columnX0Candidates, meanQ, boundaryLoop, boundaryStep,
      boundaryColEnd, boundaryNewCur, fixLastBoundary, cTok, MIN_X_COORD,
      MAX_X_COORD]
  · decide

/-- Witness for C5 at a concrete input: two columns with inferred starts 10
and 60, both within range, give exactly two boundaries. -/
theorem C5_boundary_count_witness :
    (define_adaptive_column_boundaries [[cTok 10, cTok 60]] [0] 0 2).length
      = 2 ∧
    define_adaptive_column_boundaries [[cTok 10, cTok 60]] [0] 0 0 =
      [(MIN_X_COORD, MAX_X_COORD)] :=
  C5_boundary_count [[cTok 10, cTok 60]] [0] 0 2 (by decide)
    (Or.inl (by decide))
    (by
      intro x hx
      norm_num [avgX0Starts, avgX0Aux, avgX0Value, columnX0Candidates, meanQ,
        cTok, MIN_X_COORD, MAX_X_COORD] at hx
      rcases hx with rfl | rfl <;> norm_num [MAX_X_COORD])

theorem isDimMarker_not_all_empty (m : List String)
    (hm : isDimMarker (pyStrip (m.headD "")) = true) :
    m.all (fun c => c == "") = false := by
  cases m with
  | nil => exact absurd hm (by decide)
  | cons c cs =>
    by_cases hc : c = ""
    · subst hc
      rw [List.headD_cons] at hm
      exact absurd hm (by decide)
    · rw [List.all_cons]
      rw [show (c == "") = false from beq_eq_false_iff_ne.mpr hc]
      rfl

/-- **C3**: feature-name assignment is sticky.  A row whose first cell
matches the DIM marker sets the current feature name to that row's joined
text and is not itself emitted; for a marker row at index `i` followed by
data rows at `i+1 .. i+3` (non-empty and non-marker, with no further marker
before `i+4`), exactly three records are emitted, consecutively numbered,
each carrying the marker row's joined text as feature name, and the fold
continues past `i+4` still carrying that feature name. -/
theorem C3_sticky_feature (dataRowIndices : List ℕ) (numCols i serial : ℕ)
    (feat : String) (m r1 r2 r3 : List String) (rest : List (List String))
    (hm : isDimMarker (pyStrip (m.headD "")) = true)
    (h1d : dataRowIndices.contains (i + 1) = true)
    (h1e : r1.all (fun c => c == "") = false)
    (h1m : isDimMarker (pyStrip (r1.headD "")) = false)
    (h2d : dataRowIndices.contains (i + 2) = true)
    (h2e : r2.all (fun c => c == "") = false)
    (h2m : isDimMarker (pyStrip (r2.headD "")) = false)
    (h3d : dataRowIndices.contains (i + 3) = true)
    (h3e : r3.all (fun c => c == "") = false)
    (h3m : isDimMarker (pyStrip (r3.headD "")) = false) :
    sdfeGo dataRowIndices numCols i feat serial (m :: r1 :: r2 :: r3 :: rest) =
      mkExcelRow numCols serial (joinNonEmptyCells m) r1 ::
      mkExcelRow numCols (serial + 1) (joinNonEmptyCells m) r2 ::
      mkExcelRow numCols (serial + 2) (joinNonEmptyCells m) r3 ::
      sdfeGo dataRowIndices numCols (i + 4) (joinNonEmptyCells m) (serial + 3)
        rest ∧
    (mkExcelRow numCols serial (joinNonEmptyCells m) r1).feature =
      joinNonEmptyCells m ∧
    (mkExcelRow numCols (serial + 1) (joinNonEmptyCells m) r2).feature =
      joinNonEmptyCells m ∧
    (mkExcelRow numCols (serial + 2) (joinNonEmptyCells m) r3).feature =
      joinNonEmptyCells m := by
  refine ⟨?_, rfl, rfl, rfl⟩
  have hme := isDimMarker_not_all_empty m hm
  rw [sdfeGo, if_neg (by rw [hme]; exact Bool.false_ne_true), if_pos hm]
  rw [sdfeGo, if_neg (by rw [h1e]; exact Bool.false_ne_true),
    if_neg (by rw [h1m]; exact Bool.false_ne_true), if_pos h1d]
  rw [sdfeGo, if_neg (by rw [h2e]; exact Bool.false_ne_true),
    if_neg (by rw [h2m]; exact Bool.false_ne_true), if_pos h2d]
  rw [sdfeGo, if_neg (by rw [h3e]; exact Bool.false_ne_true),
    if_neg (by rw [h3m]; exact Bool.false_ne_true), if_pos h3d]

/-- Witness for C3 at a concrete grid: marker row `["DIM A", ""]` at index
0, data rows at indices 1-3. -/
theorem C3_sticky_feature_witness :
    sdfeGo [1, 2, 3] 2 0 "N/A" 1
        [["DIM A", ""], ["a", "1"], ["b", "2"], ["c", "3"]] =
      mkExcelRow 2 1 (joinNonEmptyCells ["DIM A", ""]) ["a", "1"] ::
      mkExcelRow 2 2 (joinNonEmptyCells ["DIM A", ""]) ["b", "2"] ::
      mkExcelRow 2 3 (joinNonEmptyCells ["DIM A", ""]) ["c", "3"] ::
      sdfeGo [1, 2, 3] 2 4 (joinNonEmptyCells ["DIM A", ""]) 4 [] ∧
    (mkExcelRow 2 1 (joinNonEmptyCells ["DIM A", ""]) ["a", "1"]).feature =
      joinNonEmptyCells ["DIM A", ""] ∧
    (mkExcelRow 2 2 (joinNonEmptyCells ["DIM A", ""]) ["b", "2"]).feature =
      joinNonEmptyCells ["DIM A", ""] ∧
    (mkExcelRow 2 3 (joinNonEmptyCells ["DIM A", ""]) ["c", "3"]).feature =
      joinNonEmptyCells ["DIM A", ""] :=
  C3_sticky_feature [1, 2, 3] 2 0 1 "N/A" ["DIM A", ""] ["a", "1"] ["b", "2"]
    ["c", "3"] [] (by decide) (by decide) (by decide) (by decide) (by decide)
    (by decide) (by decide) (by decide) (by decide) (by decide)

/-- **C4**: for a document whose header row is the 9-column template and
with one data row beginning `["X", "10.00", "0.05", "-0.05", "10.02", ...]`,
the data-row classifier marks exactly the data row, and the extractor emits
a record with `nominal = "10.00"`, `upper_tol = "0.05"`,
`lower_tol = "-0.05"`, `actual = "10.02"`, and a remarks field containing
`"轴: X"`. -/
theorem C4_kan_scenario :
    identify_data_rows [kanHeaderTokens, kanDataTokens] = [1] ∧
    structure_data_for_excel
        [KAN_HEADERS_TEMPLATE,
         ["X", "10.00", "0.05", "-0.05", "10.02", "10.03", "10.01", "0.02",
          "0.00"]] [1] 9 =
      [{ seq := 1, feature := "N/A", actual := "10.02", nominal := "10.00",
         upperTol := "0.05", lowerTol := "-0.05", deviation := "0.02",
         overTol := "0.00",
         remarks := "轴: X; 最大值: 10.03; 最小值: 10.01" }] ∧
    (∃ pre post,
      "轴: X; 最大值: 10.03; 最小值: 10.01" = pre ++ "轴: X" ++ post) := by
  refine ⟨by decide, by decide, "", "; 最大值: 10.03; 最小值: 10.01", by decide⟩

/-! ### Properties of sanitisation -/
theorem sanitizeSub_allowed (s : String) :
    ∀ c ∈ (sanitizeSub s).data, allowedFilenameChar c = true := by
  intro c hc
  unfold sanitizeSub at hc
  rw [List.mem_map] at hc
  obtain ⟨d, _, hd⟩ := hc
  by_cases hall : allowedFilenameChar d = true
  · rw [if_pos hall] at hd
    rw [← hd]
    exact hall
  · rw [if_neg hall] at hd
    rw [← hd]
    decide

theorem fixLeading_subset (s : String) :
    ∀ c ∈ (fixLeading s).data, c ∈ s.data ∨ c = '_' := by
  intro c hc
  unfold fixLeading at hc
  by_cases hd : s.data.headD ' ' = '-' ∨ s.data.headD ' ' = '.'
  · rw [if_pos hd] at hc
    rcases List.mem_cons.mp (show c ∈ '_' :: s.data.tail from hc) with rfl | h2
    · exact Or.inr rfl
    · exact Or.inl ((List.tail_sublist s.data).mem h2)
  · rw [if_neg hd] at hc
    exact Or.inl hc

theorem collapseUAux_subset :
    ∀ (l : List Char) (c : Char), c ∈ collapseUAux l → c ∈ l ∨ c = '_'
  | [], c, h => absurd h (by simp [collapseUAux])
  | d :: rest, c, h => by
    rw [collapseUAux] at h
    by_cases hd : d = '_' ∧ rest.headD ' ' = '_'
    · rw [if_pos hd] at h
      rcases collapseUAux_subset rest c h with h3 | h3
      · exact Or.inl (List.mem_cons.mpr (Or.inr h3))
      · exact Or.inr h3
    · rw [if_neg hd] at h
      rcases List.mem_cons.mp h with rfl | h2
      · exact Or.inl (List.mem_cons.mpr (Or.inl rfl))
      · rcases collapseUAux_subset rest c h2 with h3 | h3
        · exact Or.inl (List.mem_cons.mpr (Or.inr h3))
        · exact Or.inr h3

theorem stripUnderscores_subset (s : String) :
    ∀ c ∈ (stripUnderscores s).data, c ∈ s.data := by
  intro c hc
  unfold stripUnderscores at hc
  rw [List.mem_reverse] at hc
  have h1 := (List.dropWhile_sublist (l := (s.data.dropWhile
    (fun c => c == '_')).reverse) (fun c => c == '_')).mem hc
  rw [List.mem_reverse] at h1
  exact (List.dropWhile_sublist _).mem h1

theorem sanitizeCore_allowed (text : String) :
    ∀ c ∈ (sanitizeCore text).data, allowedFilenameChar c = true := by
  intro c hc
  unfold sanitizeCore at hc
  have h1 := stripUnderscores_subset _ c hc
  unfold collapseUnderscores at h1
  rcases collapseUAux_subset _ c h1 with h2 | h2
  · rcases fixLeading_subset _ c h2 with h3 | h3
    · exact sanitizeSub_allowed _ c h3
    · rw [h3]; decide
  · rw [h2]; decide

theorem sanitize_ne_empty (text dflt : String) (h : dflt ≠ "") :
    sanitize_filename_component text dflt ≠ "" := by
  unfold sanitize_filename_component
  by_cases h1 : text = "" ∨ pyStrip text = ""
  · rw [if_pos h1]; exact h
  · rw [if_neg h1]
    by_cases h2 : sanitizeCore text = ""
    · rw [if_pos h2]; exact h
    · rw [if_neg h2]; exact h2

/-- **C10 amended**: provided the supplied default is non-empty and itself
contains only allowed characters, `sanitize_filename_component` returns a
non-empty string containing only (word) alphanumerics, underscores, dots
and hyphens, and returns the supplied default whenever the input is empty,
whitespace-only, or reduces to nothing after sanitisation.  (Without the
proviso on the default the original claim is false; see the
counterexample.) -/
theorem C10_sanitize (text dflt : String) (hne : dflt ≠ "")
    (hok : ∀ c ∈ dflt.data, allowedFilenameChar c = true) :
    sanitize_filename_component text dflt ≠ "" ∧
    (∀ c ∈ (sanitize_filename_component text dflt).data,
      allowedFilenameChar c = true) ∧
    ((text = "" ∨ pyStrip text = "" ∨ sanitizeCore text = "") →
      sanitize_filename_component text dflt = dflt) := by
  refine ⟨sanitize_ne_empty text dflt hne, ?_, ?_⟩
  · unfold sanitize_filename_component
    by_cases h1 : text = "" ∨ pyStrip text = ""
    · rw [if_pos h1]; exact hok
    · rw [if_neg h1]
      by_cases h2 : sanitizeCore text = ""
      · rw [if_pos h2]; exact hok
      · rw [if_neg h2]; exact sanitizeCore_allowed text
  · intro hz
    unfold sanitize_filename_component
    by_cases h1 : text = "" ∨ pyStrip text = ""
    · rw [if_pos h1]
    · rw [if_neg h1]
      have h2 : sanitizeCore text = "" := by
        rcases hz with hz | hz | hz
        · exact absurd (Or.inl hz) h1
        · exact absurd (Or.inr hz) h1
        · exact hz
      rw [if_pos h2]

/-- **C10 counterexample**: with an empty supplied default, the empty input
is returned as the empty string (not a non-empty string); with a
whitespace default, the returned default contains a character that is not
among the allowed filename characters. -/
theorem C10_counterexample :
    sanitize_filename_component "" "" = "" ∧
    sanitize_filename_component "" " " = " " ∧
    ¬ (∀ c ∈ (" " : String).data, allowedFilenameChar c = true) := by
  refine ⟨by decide, by decide, ?_⟩
  intro h
  exact absurd (h ' ' (by decide)) (by decide)

/-- Witness for C10 at a concrete input: the default `"comp"` of the source
and an input that sanitises to something non-empty. -/
theorem C10_sanitize_witness :
    ("comp" : String) ≠ "" ∧
    sanitize_filename_component " a b?" "comp" ≠ "" ∧
    sanitize_filename_component "" "comp" = "comp" := by
  have h := C10_sanitize " a b?" "comp" (by decide) (by decide)
  have h2 := C10_sanitize "" "comp" (by decide) (by decide)
  exact ⟨by decide, h.1, h2.2.2 (Or.inl rfl)⟩

theorem append_ne_empty_left (s t : String) (h : s ≠ "") : s ++ t ≠ "" := by
  intro he
  apply h
  have h2 := congrArg String.data he
  rw [String.data_append s t] at h2
  have h3 : s.data = [] := (List.append_eq_nil.mp h2).1
  cases s with
  | mk d =>
    simp only at h3
    rw [h3]

theorem processInfoRow_part_name (gridLen rowIdx : ℕ) (row : List String)
    (info : TopInfo) :
    (processInfoRow gridLen rowIdx row info).part_name =
      (match part_search (rowTextOf row) with
       | some cap =>
         sanitize_filename_component (pyStrip cap)
           ("PartRow" ++ toString rowIdx)
       | none => info.part_name) := by
  unfold processInfoRow
  dsimp only
  cases hp : part_search (rowTextOf row) with
  | none =>
    cases hs : serial_search (rowTextOf row) with
    | none => rfl
    | some cap => rfl
  | some cap =>
    cases hs : serial_search (rowTextOf row) with
    | none => rfl
    | some cap2 => rfl

theorem processInfoRow_serial_number (gridLen rowIdx : ℕ) (row : List String)
    (info : TopInfo) :
    (processInfoRow gridLen rowIdx row info).serial_number =
      (match serial_search (rowTextOf row) with
       | some cap =>
         sanitize_filename_component
           (extendSerial gridLen rowIdx row (rowTextOf row) (pyStrip cap))
           ("SerialRow" ++ toString rowIdx)
       | none => info.serial_number) := by
  unfold processInfoRow
  dsimp only
  cases hp : part_search (rowTextOf row) with
  | none =>
    cases hs : serial_search (rowTextOf row) with
    | none => rfl
    | some cap => rfl
  | some cap =>
    cases hs : serial_search (rowTextOf row) with
    | none => rfl
    | some cap2 => rfl

theorem topInfoGo_part_of_none (gridLen : ℕ) :
    ∀ (rows : List (List String)) (rowIdx : ℕ) (info : TopInfo),
      (∀ row ∈ rows, part_search (rowTextOf row) = none) →
      (topInfoGo gridLen rowIdx rows info).part_name = info.part_name
  | [], _, _, _ => rfl
  | row :: rest, rowIdx, info, hall => by
    rw [topInfoGo]
    rw [topInfoGo_part_of_none gridLen rest (rowIdx + 1) _
      (fun r hr => hall r (List.mem_cons.mpr (Or.inr hr)))]
    rw [processInfoRow_part_name]
    rw [hall row (List.mem_cons.mpr (Or.inl rfl))]

theorem topInfoGo_serial_of_none (gridLen : ℕ) :
    ∀ (rows : List (List String)) (rowIdx : ℕ) (info : TopInfo),
      (∀ row ∈ rows, serial_search (rowTextOf row) = none) →
      (topInfoGo gridLen rowIdx rows info).serial_number = info.serial_number
  | [], _, _, _ => rfl
  | row :: rest, rowIdx, info, hall => by
    rw [topInfoGo]
    rw [topInfoGo_serial_of_none gridLen rest (rowIdx + 1) _
      (fun r hr => hall r (List.mem_cons.mpr (Or.inr hr)))]
    rw [processInfoRow_serial_number]
    rw [hall row (List.mem_cons.mpr (Or.inl rfl))]

theorem topInfoGo_part_ne (gridLen : ℕ) :
    ∀ (rows : List (List String)) (rowIdx : ℕ) (info : TopInfo),
      info.part_name ≠ "" →
      (topInfoGo gridLen rowIdx rows info).part_name ≠ ""
  | [], _, _, h => h
  | row :: rest, rowIdx, info, h => by
    rw [topInfoGo]
    apply topInfoGo_part_ne gridLen rest (rowIdx + 1)
    rw [processInfoRow_part_name]
    cases part_search (rowTextOf row) with
    | none => exact h
    | some cap =>
      exact sanitize_ne_empty _ _ (append_ne_empty_left _ _ (by decide))

/-- **C9 amended**: when no part-identifier pattern matches in the first
five grid rows, the returned `part_name` is the sanitised PDF filename stem
(with `"UnknownPart"` as its fallback), not the literal `"UnknownPart"`;
when no serial-number pattern matches, the returned `serial_number` is the
placeholder `"NoSerial"`; and neither field is ever the empty string. -/
theorem C9_placeholders (grid : List (List String)) (pdfFilename : String) :
    ((∀ row ∈ grid.take 5, part_search (rowTextOf row) = none) →
      (extract_top_level_info_from_grid grid pdfFilename).part_name =
        sanitize_filename_component (pySplitextStem pdfFilename)
          "UnknownPart") ∧
    ((∀ row ∈ grid.take 5, serial_search (rowTextOf row) = none) →
      (extract_top_level_info_from_grid grid pdfFilename).serial_number =
        "NoSerial") ∧
    (extract_top_level_info_from_grid grid pdfFilename).part_name ≠ "" ∧
    (extract_top_level_info_from_grid grid pdfFilename).serial_number ≠ "" := by
  refine ⟨?_, ?_, ?_, ?_⟩
  · intro hall
    unfold extract_top_level_info_from_grid
    exact topInfoGo_part_of_none grid.length (grid.take 5) 0 _ hall
  · intro hall
    unfold extract_top_level_info_from_grid
    dsimp only
    rw [topInfoGo_serial_of_none grid.length (grid.take 5) 0 _ hall]
    rfl
  · unfold extract_top_level_info_from_grid
    exact topInfoGo_part_ne grid.length (grid.take 5) 0 _
      (sanitize_ne_empty _ _ (by decide))
  · unfold extract_top_level_info_from_grid
    dsimp only
    by_cases h : (topInfoGo grid.length 0 (grid.take 5)
        { part_name := sanitize_filename_component (pySplitextStem pdfFilename)
            "UnknownPart"
          serial_number := "" }).serial_number = ""
    · rw [h]
      decide
    · simp only [if_neg h]
      exact h

/-- **C9 counterexample**: with no part-identifier match in the grid, the
returned `part_name` is the sanitised filename stem (`"report1"`), not the
placeholder string `"UnknownPart"` the claim asserts. -/
theorem C9_counterexample :
    (∀ row ∈ ([["hello"]] : List (List String)).take 5,
      part_search (rowTextOf row) = none) ∧
    (extract_top_level_info_from_grid [["hello"]] "report1.pdf").part_name =
      "report1" ∧
    ("report1" : String) ≠ "UnknownPart" := by
  refine ⟨by decide, by decide, by decide⟩

/-- Witness for C9 at a concrete input: a grid with no identifier matches
and a filename with a sanitisable stem. -/
theorem C9_placeholders_witness :
    (extract_top_level_info_from_grid [["hello"]] "no_ids.pdf").part_name =
      sanitize_filename_component (pySplitextStem "no_ids.pdf") "UnknownPart" ∧
    (extract_top_level_info_from_grid [["hello"]] "no_ids.pdf").serial_number =
      "NoSerial" := by
  have h := C9_placeholders [["hello"]] "no_ids.pdf"
  exact ⟨h.1 (by decide), h.2.1 (by decide)⟩
